import Mathlib

/-!
Verification of the Blockly MATLAB code generator (kleinerm/blockly,
`generators/matlab.js` and `generators/matlab/*.js`).

The generator is a table of pure string-producing emitter functions, one per
block kind, plus a small driver (`finish`, `scrub_`, `quote_`,
`getAdjustedInt`) shared by all of them.  This file gives a shallow embedding
of the emitters and driver routines that the claims concern, and proves (or
refutes) the claimed properties.

Modelling conventions, used throughout:
- `valueToCode(block, SLOT, order)` returns the rendered code of the child
  attached at SLOT, or the empty string when the slot is unfilled.  Each
  emitter is therefore embedded as a function of the rendered child strings,
  with the empty string standing for an unfilled slot; the JavaScript idiom
  `valueToCode(...) || 'd'` becomes `orD s d` below (on strings, JS `||`
  picks the default exactly when the rendered code is the empty string).
- Field values (`block.getFieldValue(...)`) are passed as strings.
- JavaScript `throw Error(msg)` is embedded as `Except.error msg`.
- Order-of-operation constants (matlab.js lines 88-109) are embedded as
  naturals scaled by ten, so that `ORDER_MEMBER = 2.1` and
  `ORDER_FUNCTION_CALL = 2.2` stay distinct and the relative order of all
  constants is preserved.
- Brace and quote characters inside generated MATLAB text are written with
  `\x7b`, `\x7d` and `\x27` escapes.
-/

namespace MatlabGen

/-! ### Basic string utilities shared by the embedding -/

/-- Test for the whitespace class of a JavaScript regular expression
(the characters of `\s` that can occur in generated definition text). -/
def isSpaceChar (c : Char) : Bool :=
  c = ' ' || c = '\t' || c = '\n' || c = '\r' || c = '\x0b' || c = '\x0c'

/-- Embedding of the JavaScript string-or-default idiom `s || d`:
on strings, `||` yields `d` exactly when `s` is empty. -/
def orD (s d : String) : String := if s = "" then d else s

/-- Character membership in a character list, by structural recursion
(kept local so that its equations are directly available to `simp`). -/
def occursChar (q : Char) : List Char → Bool
  | [] => false
  | c :: r => c == q || occursChar q r

/-- Number of occurrences of a (nonempty) pattern in a character list,
counting one occurrence per starting position. -/
def countOcc (pat : List Char) : List Char → Nat
  | [] => 0
  | l@(_ :: rest) => (if pat.isPrefixOf l then 1 else 0) + countOcc pat rest

/-- Decide whether a character list ends with exactly one `'\n'`:
its last character is a newline and the one before (if any) is not. -/
def endsOneNL (l : List Char) : Bool :=
  match l.reverse with
  | c :: rest => c == '\n' && !(rest.head? == some '\n')
  | [] => false

/-- Parenthesis-balance scan: `true` iff the parentheses of the list are
balanced (never more `')'` than `'('` so far, and equally many at the end). -/
def isBalancedAux : List Char → Nat → Bool
  | [], 0 => true
  | [], _ + 1 => false
  | '(' :: r, d => isBalancedAux r (d + 1)
  | ')' :: _, 0 => false
  | ')' :: r, d + 1 => isBalancedAux r d
  | _ :: r, d => isBalancedAux r d

/-- Balanced-parentheses test on a string. -/
def isBalanced (s : String) : Bool := isBalancedAux s.data 0

/-- Scan for an occurrence of the delimiter `d` that is not escaped by a
backslash, tracking whether the scanner sits right after an escaping
backslash. -/
def scanUnescaped (d : Char) : Bool → List Char → Bool
  | _, [] => false
  | esc, c :: r =>
    if c = '\\' then scanUnescaped d (!esc) r
    else if c = d && !esc then true
    else scanUnescaped d false r

/-- Whether the delimiter `d` occurs unescaped (not immediately preceded by
an odd run of backslashes) in the list. -/
def hasUnescaped (d : Char) (l : List Char) : Bool := scanUnescaped d false l

/-- Embedding of Blockly's `stringUtils.isNumber`, the regular expression
test for a numeric literal with optional sign, fraction and surrounding
whitespace. -/
def isNumberStr (s : String) : Bool :=
  let l := s.data.dropWhile isSpaceChar
  let l := match l with
    | '-' :: r => r
    | l => l
  let ds := l.takeWhile Char.isDigit
  let r := l.dropWhile Char.isDigit
  if ds.isEmpty then false
  else match r with
    | [] => true
    | '.' :: r2 =>
      let ds2 := r2.takeWhile Char.isDigit
      let r3 := r2.dropWhile Char.isDigit
      !ds2.isEmpty && r3.all isSpaceChar
    | _ => r.all isSpaceChar

/-- Numeric value of a digit list, most significant digit first. -/
def digitsVal (ds : List Char) : Nat :=
  ds.foldl (fun acc c => acc * 10 + (c.toNat - '0'.toNat)) 0

/-- Embedding of JavaScript `parseInt(s, 10)` on strings accepted by
`isNumberStr`: skip whitespace, read an optional sign and then the leading
digit run (stopping at a decimal point). -/
def parseIntJS (s : String) : Int :=
  let l := s.data.dropWhile isSpaceChar
  match l with
  | '-' :: r => -(digitsVal (r.takeWhile Char.isDigit) : Int)
  | l => (digitsVal (l.takeWhile Char.isDigit) : Int)

/-- Test for the JavaScript regular expression `/^\w+$/` used by the
generator to recognise a bare identifier. -/
def isIdentifier (s : String) : Bool :=
  !s.data.isEmpty && s.data.all (fun c => c.isAlphanum || c = '_')

/-! ### Order-of-operation constants (matlab.js lines 88-109)

The JavaScript values are scaled by ten (`2.1` becomes `21`), preserving
distinctness and relative order. -/

def ORDER_ATOMIC : Nat := 0
def ORDER_COLLECTION : Nat := 10
def ORDER_MEMBER : Nat := 21
def ORDER_FUNCTION_CALL : Nat := 22
def ORDER_EXPONENTIATION : Nat := 30
def ORDER_UNARY_SIGN : Nat := 40
def ORDER_MULTIPLICATIVE : Nat := 50
def ORDER_ADDITIVE : Nat := 60
def ORDER_RELATIONAL : Nat := 110
def ORDER_LOGICAL_NOT : Nat := 120
def ORDER_LOGICAL_AND : Nat := 130
def ORDER_LOGICAL_OR : Nat := 140
def ORDER_CONDITIONAL : Nat := 150
def ORDER_NONE : Nat := 990

/-! ### The string quoter `Matlab.quote_` (matlab.js lines 231-245)

The source first doubles every backslash (`replace(/\\/g, '\\\\')`), then
replaces every newline by a backslash followed by a newline
(`replace(/\n/g, '\\\n')`); both regex replacements act on single
characters, so they are embedded as per-character expansions.  It then
chooses the delimiter: a single quote by default, a double quote when the
text contains a single quote but no double quote; when the text contains
both, interior single quotes are backslash-escaped. -/

/-- Per-character expansion of `replace(/\\/g, '\\\\')`. -/
def escBS : List Char → List Char
  | [] => []
  | c :: r => (if c = '\\' then ['\\', '\\'] else [c]) ++ escBS r

/-- Per-character expansion of `replace(/\n/g, '\\\n')`. -/
def escNL : List Char → List Char
  | [] => []
  | c :: r => (if c = '\n' then ['\\', '\n'] else [c]) ++ escNL r

/-- Per-character expansion of `replace(/'/g, '\\\'')`. -/
def escSQ : List Char → List Char
  | [] => []
  | c :: r => (if c = '\x27' then ['\\', '\x27'] else [c]) ++ escSQ r

/-- Body and delimiter chosen by `Matlab.quote_` for the given text. -/
def quoteBody (l : List Char) : List Char × Char :=
  let t := escNL (escBS l)
  if occursChar '\x27' t then
    if occursChar '"' t then (escSQ t, '\x27')
    else (t, '"')
  else (t, '\x27')

/-- Embedding of `Matlab.quote_`: escape the text and wrap it in the chosen
quote character. -/
def quote_ (s : String) : String :=
  let (b, q) := quoteBody s.data
  ⟨q :: b ++ [q]⟩

/-- Image of one character under the backslash-and-newline escaping
(the composition of the first two replacements of `quote_`). -/
def charEscNoSQ (c : Char) : List Char :=
  if c = '\\' then ['\\', '\\']
  else if c = '\n' then ['\\', '\n']
  else [c]

/-- Image of one character under the full escaping used when the single-quote
delimiter wraps a text that itself contains single quotes. -/
def charEscSQ (c : Char) : List Char :=
  if c = '\\' then ['\\', '\\']
  else if c = '\n' then ['\\', '\n']
  else if c = '\x27' then ['\\', '\x27']
  else [c]

/-! ### Index adjustment `Matlab.getAdjustedInt` (matlab.js lines 309-338)

The routine returns either a JavaScript number (when the rendered offset is
a numeric literal) or a code string; this is embedded as `Int ⊕ String`.
`oneBased` is `block.workspace.options.oneBasedIndex`, `atRaw` the rendered
code of the `atId` slot (empty when unfilled), `optDelta` the `opt_delta`
argument (`0` when absent, matching `opt_delta || 0`) and `optNegate` the
`opt_negate` flag. -/

def getAdjustedInt (oneBased : Bool) (atRaw : String) (optDelta : Int)
    (optNegate : Bool) : Int ⊕ String :=
  let delta : Int := optDelta - (if oneBased then 1 else 0)
  let defaultAtIndex : String := if oneBased then "1" else "0"
  let at_ := orD atRaw defaultAtIndex
  if isNumberStr at_ then
    -- If the index is a naked number, adjust it right now.
    let n := parseIntJS at_ + delta
    .inl (if optNegate then -n else n)
  else
    -- If the index is dynamic, adjust it in code.
    let s :=
      if delta > 0 then "int(" ++ at_ ++ " + " ++ toString delta ++ ")"
      else if delta < 0 then "int(" ++ at_ ++ " - " ++ toString (-delta) ++ ")"
      else "int(" ++ at_ ++ ")"
    .inr (if optNegate then "-" ++ s else s)

/-- Rendering of a `getAdjustedInt` result at a splice site; JavaScript
stringifies the number implicitly when concatenating. -/
def adjToCode : Int ⊕ String → String
  | .inl n => toString n
  | .inr s => s

/-! ### Logic emitters (matlab.js, logic section, lines 363-473) -/

/-- Operator table of `logic_compare` (lines 405-406). -/
def logicCompareOps : List (String × String) :=
  [("EQ", "=="), ("NEQ", "~="), ("LT", "<"), ("LTE", "<="),
   ("GT", ">"), ("GTE", ">=")]

/-- Embedding of `Matlab['logic_compare']` (lines 403-413).  For an operator
tag outside the table, `OPERATORS[...]` is `undefined` in JavaScript and
string concatenation renders it as the text `undefined`; no error is
raised. -/
def logic_compare (op a b : String) : String × Nat :=
  let operator := match logicCompareOps.lookup op with
    | some o => o
    | none => "undefined"
  let argument0 := orD a ("0")
  let argument1 := orD b ("0")
  (argument0 ++ " " ++ operator ++ " " ++ argument1, ORDER_RELATIONAL)

/-! ### Math emitters (generators/matlab/math.js) -/

/-- First switch of `math_single` (math.js lines 79-116): cases whose
result needs no parenthesisation. -/
def mathSingleTable1 (arg : String) : List (String × String) :=
  [("ABS", "abs(" ++ arg ++ ")"),
   ("ROOT", "sqrt(" ++ arg ++ ")"),
   ("LN", "log(" ++ arg ++ ")"),
   ("LOG10", "log10(" ++ arg ++ ")"),
   ("EXP", "exp(" ++ arg ++ ")"),
   ("POW10", "power(10," ++ arg ++ ")"),
   ("ROUND", "round(" ++ arg ++ ")"),
   ("ROUNDUP", "ceil(" ++ arg ++ ")"),
   ("ROUNDDOWN", "floor(" ++ arg ++ ")"),
   ("SIN", "sin(" ++ arg ++ " / 180.0 * pi)"),
   ("COS", "cos(" ++ arg ++ " / 180.0 * pi)"),
   ("TAN", "tan(" ++ arg ++ " / 180.0 * pi)")]

/-- Second switch of `math_single` (math.js lines 122-134): cases whose
result may need parenthesisation; any other operator throws. -/
def mathSingleTable2 (arg : String) : List (String × String) :=
  [("ASIN", "asin(" ++ arg ++ ") / pi * 180"),
   ("ACOS", "acos(" ++ arg ++ ") / pi * 180"),
   ("ATAN", "atan(" ++ arg ++ ") / pi * 180")]

/-- Embedding of `Matlab['math_single']` (math.js lines 61-136).  `num` is
the rendered `NUM` child (the source requests it at different orders per
operator, which only affects the child's own parenthesisation). -/
def math_single (op num : String) : Except String (String × Nat) :=
  if op = "NEG" then
    .ok ("-" ++ orD num ("0"), ORDER_UNARY_SIGN)
  else
    let arg := orD num ("0")
    match (mathSingleTable1 arg).lookup op with
    | some code => .ok (code, ORDER_FUNCTION_CALL)
    | none =>
      match (mathSingleTable2 arg).lookup op with
      | some code => .ok (code, ORDER_MULTIPLICATIVE)
      | none => .error ("Unknown math operator: " ++ op)

/-- Embedding of `Matlab['math_number_property']` (math.js lines 152-187,
the MATLAB generator).  An unrecognised property leaves `code` undefined,
embedded as `none`.  In the `DIVISIBLE_BY` case the rendered `DIVISOR` child
is spliced without any default or zero check. -/
def math_number_property (property numRaw divisorRaw : String) :
    Option String × Nat :=
  let number_to_check := orD numRaw ("0")
  let code : Option String :=
    if property = "PRIME" then some ("isprime(" ++ number_to_check ++ ")")
    else if property = "EVEN" then
      some ("mod(" ++ number_to_check ++ ", 2) == 0")
    else if property = "ODD" then
      some ("mod(" ++ number_to_check ++ ", 2) == 1")
    else if property = "WHOLE" then
      some ("mod(" ++ number_to_check ++ ", 1) == 0")
    else if property = "POSITIVE" then some (number_to_check ++ " > 0")
    else if property = "NEGATIVE" then some (number_to_check ++ " < 0")
    else if property = "DIVISIBLE_BY" then
      some ("mod(" ++ number_to_check ++ ", " ++ divisorRaw ++ ") == 0")
    else none
  (code, ORDER_RELATIONAL)

/-- Embedding of the Python-generator `math_number_property` kept in the
same repository (src/unnamed/part_000, lines 160-220), restricted to the
non-PRIME cases relevant here; its `DIVISIBLE_BY` case short-circuits an
absent or literal-zero divisor to the `False` literal at atomic order. -/
def math_number_property_py (property numRaw divisorRaw : String) :
    Option String × Nat :=
  let number_to_check := orD numRaw ("0")
  if property = "DIVISIBLE_BY" then
    -- If 'divisor' is some code that evals to 0, the target will raise an
    -- error, hence the guard in the source.
    if divisorRaw = "" || divisorRaw = "0" then (some ("False"), ORDER_ATOMIC)
    else (some (number_to_check ++ " % " ++ divisorRaw ++ " == 0"),
          ORDER_RELATIONAL)
  else if property = "EVEN" then
    (some (number_to_check ++ " % 2 == 0"), ORDER_RELATIONAL)
  else if property = "ODD" then
    (some (number_to_check ++ " % 2 == 1"), ORDER_RELATIONAL)
  else if property = "WHOLE" then
    (some (number_to_check ++ " % 1 == 0"), ORDER_RELATIONAL)
  else if property = "POSITIVE" then
    (some (number_to_check ++ " > 0"), ORDER_RELATIONAL)
  else if property = "NEGATIVE" then
    (some (number_to_check ++ " < 0"), ORDER_RELATIONAL)
  else (none, ORDER_RELATIONAL)

/-- Per-operator result of `math_on_list` for the non-RANDOM reductions
(math.js lines 208-233). -/
def mathOnListTable (list : String) : List (String × String) :=
  [("SUM", "sum(" ++ list ++ ")"),
   ("MIN", "min(" ++ list ++ ")"),
   ("MAX", "max(" ++ list ++ ")"),
   ("AVERAGE", "mean(" ++ list ++ ")"),
   ("MEDIAN", "median(" ++ list ++ ")"),
   ("MODE", "mode(" ++ list ++ ")"),
   ("STD_DEV", "std(" ++ list ++ ")")]

/-- Embedding of `Matlab['math_on_list']` (math.js lines 203-241).  The
`RANDOM` reduction splices the rendered list expression twice; an unknown
operator throws. -/
def math_on_list (func listRaw : String) : Except String (String × Nat) :=
  let list := orD listRaw ("[]")
  match (mathOnListTable list).lookup func with
  | some code => .ok (code, ORDER_FUNCTION_CALL)
  | none =>
    if func = "RANDOM" then
      .ok (list ++ "(randi(length(" ++ list ++ ")))", ORDER_FUNCTION_CALL)
    else .error ("Unknown operator: " ++ func)

/-! ### List emitters (generators/matlab/lists.js) -/

/-- Name under which the source registers its get/remove helper via
`provideFunction_('getRemoveAt', ...)` (lists.js lines 126-139); the
external name allocator returns the desired name unchanged unless it
collides with a reserved word. -/
def getRemoveAtName : String := "getRemoveAt"

/-- Result of an emitter that may produce either an expression (a code and
order pair) or a statement line. -/
inductive Emitted where
  | expr (code : String) (order : Nat)
  | stmt (code : String)
deriving DecidableEq, Repr

/-- Embedding of `Matlab['lists_getIndex']` (lists.js lines 124-210).
`modeF` and `whereF` are the `MODE` and `WHERE` fields (defaulted by the
source to `GET` and `FROM_START` when falsy), `valueRaw` the rendered
`VALUE` child and `atRaw` the rendered `AT` child for the positional
addressing modes.  Any mode/where combination not handled by the switch
falls through to a `throw`. -/
def lists_getIndex (oneBased : Bool) (modeF whereF valueRaw atRaw : String) :
    Except String Emitted :=
  let mode := orD modeF ("GET")
  let wh := orD whereF ("FROM_START")
  let list := orD valueRaw ("\x7b\x7d")
  if wh = "FIRST" then
    if mode = "GET" then .ok (.expr (list ++ "\x7b1\x7d") ORDER_MEMBER)
    else if mode = "GET_REMOVE" then
      .ok (.expr (getRemoveAtName ++ "(" ++ list ++ ", 1, 0)")
        ORDER_FUNCTION_CALL)
    else if mode = "REMOVE" then
      .ok (.stmt (list ++ " = " ++ list ++ "(2:end);\n"))
    else .error ("Unhandled combination (lists_getIndex).")
  else if wh = "LAST" then
    if mode = "GET" then .ok (.expr (list ++ "\x7bend\x7d") ORDER_MEMBER)
    else if mode = "GET_REMOVE" then
      .ok (.expr (getRemoveAtName ++ "(" ++ list ++ ", -1, 0)")
        ORDER_FUNCTION_CALL)
    else if mode = "REMOVE" then
      .ok (.stmt (list ++ " = " ++ list ++ "(1:end-1);\n"))
    else .error ("Unhandled combination (lists_getIndex).")
  else if wh = "FROM_START" then
    let at_ := adjToCode (getAdjustedInt oneBased atRaw 1 false)
    if mode = "GET" then
      .ok (.expr (list ++ "\x7b" ++ at_ ++ "\x7d") ORDER_MEMBER)
    else if mode = "GET_REMOVE" then
      .ok (.expr (getRemoveAtName ++ "(" ++ list ++ ", " ++ at_ ++ ", 0)")
        ORDER_FUNCTION_CALL)
    else if mode = "REMOVE" then
      .ok (.stmt (getRemoveAtName ++ "(" ++ list ++ ", " ++ at_ ++ ", 0);\n"))
    else .error ("Unhandled combination (lists_getIndex).")
  else if wh = "FROM_END" then
    let at_ := adjToCode (getAdjustedInt oneBased atRaw 1 true)
    if mode = "GET" then
      .ok (.expr (list ++ "\x7bend+1" ++ at_ ++ "\x7d") ORDER_MEMBER)
    else if mode = "GET_REMOVE" then
      .ok (.expr (getRemoveAtName ++ "(" ++ list ++ ", " ++ at_ ++ ", 0)")
        ORDER_FUNCTION_CALL)
    else if mode = "REMOVE" then
      .ok (.stmt (getRemoveAtName ++ "(" ++ list ++ ", " ++ at_ ++ ", 0);\n"))
    else .error ("Unhandled combination (lists_getIndex).")
  else if wh = "RANDOM" then
    if mode = "GET" then
      .ok (.expr (getRemoveAtName ++ "(" ++ list ++ ", 0, 1)")
        ORDER_FUNCTION_CALL)
    else if mode = "GET_REMOVE" then
      .ok (.expr (getRemoveAtName ++ "(" ++ list ++ ", 0, 0)")
        ORDER_FUNCTION_CALL)
    else if mode = "REMOVE" then
      .ok (.stmt (getRemoveAtName ++ "(" ++ list ++ ", 0, 0);\n"))
    else .error ("Unhandled combination (lists_getIndex).")
  else .error ("Unhandled combination (lists_getIndex).")

/-- Embedding of `Matlab['lists_setIndex']` (lists.js lines 212-281);
statement-producing.  `tmpListName` and `xVarName` stand for the fresh
variable names the external allocator returns for `'tmp_list'` and
`'tmp_x'`.  In the `RANDOM` case `cacheList` assigns a non-identifier
collection expression to `tmpListName` before use. -/
def lists_setIndex (oneBased : Bool) (modeF whereF listRaw valueRaw atRaw
    tmpListName xVarName : String) : Except String String :=
  let list := orD listRaw ("\x7b\x7d")
  let mode := orD modeF ("GET")
  let wh := orD whereF ("FROM_START")
  let value := "flattentocelllist(" ++ orD valueRaw ("[]") ++ ")"
  if wh = "FIRST" then
    if mode = "SET" then .ok (list ++ "(1) = " ++ value ++ ";\n")
    else if mode = "INSERT" then
      .ok (list ++ " = [" ++ value ++ ", " ++ list ++ "];\n")
    else .error ("Unhandled combination (lists_setIndex).")
  else if wh = "LAST" then
    if mode = "SET" then .ok (list ++ "(end) = " ++ value ++ ";\n")
    else if mode = "INSERT" then
      .ok (list ++ "(end+1) = " ++ value ++ ";\n")
    else .error ("Unhandled combination (lists_setIndex).")
  else if wh = "FROM_START" then
    let at_ := adjToCode (getAdjustedInt oneBased atRaw 1 false)
    if mode = "SET" then
      .ok (list ++ "(" ++ at_ ++ ") = " ++ value ++ ";\n")
    else if mode = "INSERT" then
      .ok (list ++ " = [" ++ list ++ "(1:" ++ at_ ++ "-1), " ++ value ++
        ", " ++ list ++ "(" ++ at_ ++ ":end)];\n")
    else .error ("Unhandled combination (lists_setIndex).")
  else if wh = "FROM_END" then
    let at_ := adjToCode (getAdjustedInt oneBased atRaw 1 true)
    if mode = "SET" then
      .ok (list ++ "(end+1" ++ at_ ++ ") = " ++ value ++ ";\n")
    else if mode = "INSERT" then
      .ok (list ++ " = [" ++ list ++ "(1:end+1" ++ at_ ++ "-1), " ++ value ++
        ", " ++ list ++ "(end+1" ++ at_ ++ ":end)];\n")
    else .error ("Unhandled combination (lists_setIndex).")
  else if wh = "RANDOM" then
    -- Cache non-trivial values to variables to prevent repeated look-ups.
    let cached := if isIdentifier list then ("", list)
      else (tmpListName ++ " = " ++ list ++ "\n", tmpListName)
    let code := cached.1 ++ xVarName ++ " = randi(length(" ++ cached.2 ++
      "));\n"
    if mode = "SET" then
      .ok (code ++ cached.2 ++ "(" ++ xVarName ++ ") = " ++ value ++ ";\n")
    else if mode = "INSERT" then
      .ok (code ++ cached.2 ++ " = [" ++ cached.2 ++ "(1:" ++ xVarName ++
        "-1), " ++ value ++ ", " ++ cached.2 ++ "(" ++ xVarName ++
        ":end)];\n")
    else .error ("Unhandled combination (lists_setIndex).")
  else .error ("Unhandled combination (lists_setIndex).")

/-- Embedding of `Matlab['lists_split']` (lists.js lines 358-377).  In
`SPLIT` mode the rendered `DELIM` child is spliced with no default; in
`JOIN` mode both slots carry defaults; any other mode throws. -/
def lists_split (modeF inputRaw delimRaw : String) :
    Except String (String × Nat) :=
  if modeF = "SPLIT" then
    let value_input := orD inputRaw ("\x27\x27")
    let value_delim := delimRaw
    .ok ("strsplit(" ++ value_input ++ ", " ++ value_delim ++ ")",
      ORDER_FUNCTION_CALL)
  else if modeF = "JOIN" then
    let value_input := orD inputRaw ("\x7b\x7d")
    let value_delim := orD delimRaw ("\x27\x27")
    .ok ("strjoin(" ++ value_input ++ ", " ++ value_delim ++ ")",
      ORDER_FUNCTION_CALL)
  else .error ("Unknown mode: " ++ modeF)

/-! ### Text emitters (generators/matlab/text.js, MATLAB version) -/

/-- Embedding of `Matlab['text_charAt']` (text.js lines 421-463).  In the
`RANDOM` case the rendered text expression is spliced twice with no
temporary. -/
def text_charAt (oneBased : Bool) (whereF valueRaw atRaw : String) :
    Except String (String × Nat) :=
  let wh := orD whereF ("FROM_START")
  let text := orD valueRaw ("\x27\x27")
  if wh = "FIRST" then .ok (text ++ "(1)", ORDER_MEMBER)
  else if wh = "LAST" then .ok (text ++ "(end)", ORDER_MEMBER)
  else if wh = "FROM_START" then
    let at_ := adjToCode (getAdjustedInt oneBased atRaw 1 false)
    .ok (text ++ "(" ++ at_ ++ ")", ORDER_MEMBER)
  else if wh = "FROM_END" then
    -- Ensure that a computed result of 0 selects the whole range.
    let adj := getAdjustedInt oneBased atRaw 0 true
    let at_ := match adj with
      | .inl n => if n = 0 then "end" else "end" ++ toString n
      | .inr s => if isNumberStr s then "end" ++ s else s ++ "end"
    .ok (text ++ "(" ++ at_ ++ ")", ORDER_MEMBER)
  else if wh = "RANDOM" then
    .ok (text ++ "(randi(length(" ++ text ++ ")))", ORDER_FUNCTION_CALL)
  else .error ("Unhandled option (text_charAt).")

/-- Embedding of `Matlab['text_count']` (text.js lines 599-604).  The
source writes `'length(strfind(' + text + ', ' + sub + ')'`, closing only
one of the two opened parentheses. -/
def text_count (textRaw subRaw : String) : String × Nat :=
  let text := orD textRaw ("\x27\x27")
  let sub := orD subRaw ("\x27\x27")
  ("length(strfind(" ++ text ++ ", " ++ sub ++ ")", ORDER_FUNCTION_CALL)

/-! ### Statement chain: `controls_if` and `Matlab.scrub_` -/

/-- Indentation unit of the generator (Blockly core default). -/
def INDENT : String := "  "

/-- No-op statement substituted for an empty branch (`Matlab.init`,
matlab.js line 156). -/
def PASS : String := INDENT ++ "pass\n"

/-- Clause chain of `controls_if` (matlab.js logic section lines 371-383):
each clause is the rendered `IFn` condition (defaulted to `false`) and the
rendered, already indented `DOn` branch (defaulted to `PASS`). -/
def controlsIfChain : Bool → List (String × String) → String
  | _, [] => ""
  | first, (c, b) :: rest =>
    (if first then "if " else "elseif ") ++ orD c ("false") ++ "\n" ++
      orD b PASS ++ controlsIfChain false rest

/-- Embedding of `Matlab['controls_if']` (matlab.js logic section lines
363-399) with the statement prefix/suffix instrumentation hooks disabled
(their default).  `elseBranch` is `some` when the block has an `ELSE`
input, carrying the rendered branch (empty when the branch is unfilled). -/
def controls_if (clauses : List (String × String))
    (elseBranch : Option String) : String :=
  controlsIfChain true clauses ++
    (match elseBranch with
     | some b => "else\n" ++ orD b PASS
     | none => "") ++ "end\n"

/-- Embedding of `Matlab.scrub_` (matlab.js lines 271-298).  The function
assembles `commentCode` from the block's comment and the nested comments of
its value children (lines 272-294, via the host string utilities, for
blocks that are not inline) and then returns the plain concatenation
`commentCode + code + nextCode` (line 297), where `nextCode` is the
rendering of the block's next-statement link and is empty when
`opt_thisOnly` is set or no next block exists.  The comment assembly and
successor rendering are taken as the already-computed arguments here; for a
block with no comments `commentCode` is empty. -/
def scrub_ (commentCode code nextCode : String) : String :=
  commentCode ++ code ++ nextCode

/-! ### The finisher `Matlab.finish` (matlab.js lines 194-213)

The source partitions the values of the accumulated `definitions_`
dictionary (in insertion order) into import-like and plain definitions by
the regular expression `/^(from\s+\S+\s+)?import\s+\S+/`, joins the imports
with single newlines and the plain definitions with blank lines, collapses
every newline run of length at least two to exactly two
(`replace(/\n\n+/g, '\n\n')`), replaces the trailing newline run by exactly
three newlines (`replace(/\n*$/, '\n\n\n')`) and appends the body.  The
parent `Generator.finish` is the identity. -/

/-- Consume one mandatory whitespace character and any further whitespace
(the `\s+` piece of the import pattern). -/
def munchSpaces1 (l : List Char) : Option (List Char) :=
  match l with
  | c :: rest => if isSpaceChar c then some (rest.dropWhile isSpaceChar)
    else none
  | [] => none

/-- Consume one mandatory non-whitespace character and any further
non-whitespace (the `\S+` piece of the import pattern). -/
def munchNonSpace1 (l : List Char) : Option (List Char) :=
  match l with
  | c :: rest => if isSpaceChar c then none
    else some (rest.dropWhile (fun d => !isSpaceChar d))
  | [] => none

/-- Consume a literal prefix. -/
def munchLit (lit l : List Char) : Option (List Char) :=
  if l.take lit.length = lit then some (l.drop lit.length) else none

/-- Match `import\s+\S+` at the head of the list. -/
def matchImportTail (l : List Char) : Bool :=
  match munchLit ("import").data l with
  | some r =>
    match munchSpaces1 r with
    | some r2 => (munchNonSpace1 r2).isSome
    | none => false
  | none => false

/-- Embedding of the test `def.match(/^(from\s+\S+\s+)?import\s+\S+/)`
(matlab.js line 200); greedy maximal munch is equivalent to the regular
expression's backtracking here because every `\S+`/`\s+` is followed by a
character of the opposite class. -/
def isImportDef (d : String) : Bool :=
  (match munchLit ("from").data d.data with
   | some r =>
     match munchSpaces1 r with
     | some r2 =>
       match munchNonSpace1 r2 with
       | some r3 =>
         match munchSpaces1 r3 with
         | some r4 => matchImportTail r4
         | none => false
       | none => false
     | none => false
   | none => false) ||
  matchImportTail d.data

/-- JavaScript `Array.prototype.join` on strings. -/
def joinSep (sep : String) : List String → String
  | [] => ""
  | [d] => d
  | d :: rest => d ++ sep ++ joinSep sep rest

/-- Drop every leading newline. -/
def dropNLs : List Char → List Char
  | [] => []
  | c :: cs => if c = '\n' then dropNLs cs else c :: cs

theorem dropNLs_length_le : ∀ l : List Char, (dropNLs l).length ≤ l.length
  | [] => Nat.le_refl _
  | c :: cs => by
    by_cases h : c = '\n'
    · simp only [dropNLs, h, if_pos rfl]
      exact Nat.le_succ_of_le (dropNLs_length_le cs)
    · simp [dropNLs, h]

/-- Embedding of `replace(/\n\n+/g, '\n\n')`: every maximal newline run of
length at least two is replaced by exactly two newlines. -/
def collapseNN : List Char → List Char
  | [] => []
  | '\n' :: '\n' :: rest => '\n' :: '\n' :: collapseNN (dropNLs rest)
  | c :: rest => c :: collapseNN rest
termination_by l => l.length
decreasing_by
  · exact Nat.lt_succ_of_lt (Nat.lt_succ_of_le (dropNLs_length_le rest))
  · simp

/-- Whether a list starts with two newlines. -/
def startsNN : List Char → Bool
  | a :: b :: _ => a == '\n' && b == '\n'
  | _ => false

/-- Whether three consecutive newlines occur anywhere in the list. -/
def containsTripleNL : List Char → Bool
  | [] => false
  | c :: rest => (c == '\n' && startsNN rest) || containsTripleNL rest

/-- Drop every trailing newline. -/
def dropTrailNL (l : List Char) : List Char := (dropNLs l.reverse).reverse

/-- Embedding of `replace(/\n*$/, '\n\n\n')`. -/
def trailFix (l : List Char) : List Char := dropTrailNL l ++ ['\n', '\n', '\n']

/-- Embedding of `Matlab.finish` (matlab.js lines 194-213) as a function of
the accumulated definition texts (in insertion order) and the generated
body code. -/
def finish (defs : List String) (code : String) : String :=
  let imports := defs.filter (fun d => isImportDef d)
  let definitions := defs.filter (fun d => !isImportDef d)
  let allDefs := joinSep ("\n") imports ++ "\n\n" ++
    joinSep ("\n\n") definitions
  ⟨trailFix (collapseNN allDefs.data)⟩ ++ code

/-! ### The helper-function registry (`provideFunction_`)

The registry lives in the Blockly core `Generator`, outside the generator
sources embedded above.  Modelled from the spec: `provide(key,
linesBuilder) -> assignedName` synthesizes a unique top-level name via the
external Name Allocator on the first call for a key, stores the definition
text with the placeholder substituted by the assigned name, and returns the
name; subsequent calls with the same key return the cached name without
re-registering.  At finish time all registered helper definitions are
emitted once, before the main body, in first-request order (they are stored
in `definitions_`, which `finish` above prepends to the body). -/

/-- Registry portion of the run state: accumulated definition texts and the
cache of assigned helper names, both keyed by the helper key and kept in
insertion order. -/
structure GenState where
  definitions : List (String × String)
  functionNames : List (String × String)
deriving DecidableEq, Repr

/-- Modelled from the spec: the core `provideFunction_`, with the external
Name Allocator abstracted as `nameFor` and the definition text (with the
placeholder already substituted) built by `mkDef` from the assigned name. -/
def provideFunction_ (nameFor : String → String)
    (key : String) (mkDef : String → String) (s : GenState) :
    String × GenState :=
  match s.functionNames.lookup key with
  | some n => (n, s)
  | none =>
    let n := nameFor key
    (n, { definitions := s.definitions ++ [(key, mkDef n)],
          functionNames := s.functionNames ++ [(key, n)] })

/-- State after `n` further calls of `provideFunction_` with the same key. -/
def provideStateN (nameFor : String → String) (key : String)
    (mkDef : String → String) : Nat → GenState → GenState
  | 0, s => s
  | n + 1, s => (provideFunction_ nameFor key mkDef
      (provideStateN nameFor key mkDef n s)).2

/-- Names returned by `n` successive calls of `provideFunction_` with the
same key, in call order. -/
def provideResults (nameFor : String → String) (key : String)
    (mkDef : String → String) : Nat → GenState → List String
  | 0, _ => []
  | n + 1, s =>
    let r := provideFunction_ nameFor key mkDef s
    r.1 :: provideResults nameFor key mkDef n r.2

/-- Run a sequence of registry requests left to right. -/
def runRequests (nameFor : String → String) :
    List (String × (String → String)) → GenState → GenState
  | [], s => s
  | (k, f) :: rest, s =>
    runRequests nameFor rest (provideFunction_ nameFor k f s).2

/-- Keys of `reqs` that are not yet in `seen`, in order of first request,
each key kept once. -/
def newKeys (seen : List String) : List String → List String
  | [] => []
  | k :: ks => if k ∈ seen then newKeys seen ks
    else k :: newKeys (seen ++ [k]) ks

/-- Number of entries with the given key. -/
def keyCount (ps : List (String × String)) (k : String) : Nat :=
  (ps.filter (fun p => p.1 = k)).length

/-! ### Shared lemmas -/

theorem lookup_eq_none_iff {α : Type} (k : String) :
    ∀ ps : List (String × α), ps.lookup k = none ↔ k ∉ ps.map Prod.fst
  | [] => by simp [List.lookup]
  | (a, v) :: rest => by
    have ih := lookup_eq_none_iff k rest
    by_cases h : k = a
    · subst h; simp [List.lookup]
    · have hbeq : (k == a) = false := beq_eq_false_iff_ne.mpr h
      simp only [List.lookup, hbeq, List.map_cons, List.mem_cons, not_or]
      simpa [h] using ih

theorem endsOneNL_append (l m : List Char) (h : 2 ≤ m.length) :
    endsOneNL (l ++ m) = endsOneNL m := by
  rcases hr : m.reverse with _ | ⟨c, rest⟩
  · have : m = [] := by simpa using congrArg List.reverse hr
    subst this; simp at h
  · rcases rest with _ | ⟨d, t⟩
    · have : m = [c] := by simpa using congrArg List.reverse hr
      subst this; simp at h
    · simp [endsOneNL, List.reverse_append, hr]

/-! ### Claim C2: divisibility-by-zero short-circuit (code bug)

The MATLAB `math_number_property` (math.js lines 180-184) splices the
rendered `DIVISOR` child into `mod(..., ...) == 0` with no default and no
zero check, so an unfilled divisor yields the malformed text
`mod(0, ) == 0` and a literal-zero divisor yields `mod(0, 0) == 0`; the
claimed short-circuit to the `false` literal at atomic order exists only in
the repository's Python-generator counterpart. -/

/-- Claim C2: for `PROPERTY = DIVISIBLE_BY` with an unfilled or literal-`0`
divisor the MATLAB emitter does not return the false literal at atomic
precedence; it emits a `mod` expression over the raw divisor at relational
precedence (the Python-generator version in the same repository performs
the claimed short-circuit). -/
theorem math_number_property_divisible_by_zero_bug :
    math_number_property ("DIVISIBLE_BY") ("") ("") =
      (some ("mod(0, ) == 0"), ORDER_RELATIONAL) ∧
    math_number_property ("DIVISIBLE_BY") ("") ("0") =
      (some ("mod(0, 0) == 0"), ORDER_RELATIONAL) ∧
    (∀ n d : String, (math_number_property ("DIVISIBLE_BY") n d).2 ≠
      ORDER_ATOMIC) ∧
    math_number_property_py ("DIVISIBLE_BY") ("") ("") =
      (some ("False"), ORDER_ATOMIC) ∧
    math_number_property_py ("DIVISIBLE_BY") ("") ("0") =
      (some ("False"), ORDER_ATOMIC) :=
  ⟨rfl, rfl,
   fun n d => by simp [math_number_property, ORDER_RELATIONAL, ORDER_ATOMIC],
   rfl, rfl⟩

/-! ### Claim C8: well-formedness of `text_count` output (code bug)

The MATLAB `text_count` (text.js lines 599-604) builds
`'length(strfind(' + text + ', ' + sub + ')'`, opening two parentheses and
closing one, so its output is never balanced, whatever the operands. -/

/-- Claim C8: the expression returned by `text_count` has unbalanced
parentheses; with both slots unfilled it is `length(strfind('', '')`, and
the imbalance persists for the sample filled operands shown. -/
theorem text_count_unbalanced_parens :
    text_count ("") ("") =
      ("length(strfind(\x27\x27, \x27\x27)", ORDER_FUNCTION_CALL) ∧
    isBalanced (text_count ("") ("")).1 = false ∧
    isBalanced (text_count ("x") ("y")).1 = false ∧
    isBalanced (text_count ("upper(a)") ("f(b)")).1 = false := by
  refine ⟨rfl, ?_, ?_, ?_⟩ <;> decide

/-! ### Claim C4: `getAdjustedInt` literal and dynamic offsets (corrected)

In one-based mode the routine first subtracts one from the delta, so a
literal offset `1` with no delta argument is folded to the number `0`, not
to the literal `1` the claim states; the zero-based conjunct and the
dynamic-offset conjunct hold. -/

/-- Spec-side rendering of the dynamic-offset case of the index-adjustment
contract: an `int(...)` coercion of the offset code with the net delta
added or subtracted, negated on request.  Stated from the spec's words for
comparison with `getAdjustedInt`. -/
def specDynamicAdjust (s : String) (delta : Int) (negate : Bool) : String :=
  (if negate then "-" else "") ++
    (if delta > 0 then "int(" ++ s ++ " + " ++ toString delta ++ ")"
     else if delta < 0 then "int(" ++ s ++ " - " ++ toString (-delta) ++ ")"
     else "int(" ++ s ++ ")")

/-- Claim C4, counterexample: in one-based indexing mode a literal offset
`1` with no delta argument is returned as the number `0`, not as the
literal `1` stated by the claim. -/
theorem getAdjustedInt_one_based_counterexample :
    getAdjustedInt true ("1") 0 false = .inl 0 ∧
    getAdjustedInt true ("1") 0 false ≠ .inl 1 := by
  refine ⟨rfl, ?_⟩; decide

/-- Claim C4, amended: in zero-based mode a literal offset `0` with no
delta is returned as the literal `0`; in one-based mode a literal offset
`1` with no delta is likewise returned as the literal `0` (one-based
offsets are normalised by subtracting one); and for any non-numeric,
nonempty offset code both modes return the same `int(...)` coercion with
the net delta (the delta argument less one in one-based mode) added or
subtracted, negated when the negate flag is set. -/
theorem getAdjustedInt_amended :
    getAdjustedInt false ("0") 0 false = .inl 0 ∧
    getAdjustedInt true ("1") 0 false = .inl 0 ∧
    (∀ (oneBased negate : Bool) (s : String) (d : Int),
      isNumberStr s = false → s ≠ "" →
      getAdjustedInt oneBased s d negate =
        .inr (specDynamicAdjust s (d - (if oneBased then 1 else 0)) negate)) := by
  refine ⟨rfl, rfl, fun oneBased negate s d hnum hne => ?_⟩
  simp only [getAdjustedInt, specDynamicAdjust, orD, if_neg hne, hnum,
    Bool.false_eq_true, if_false]
  cases negate <;> simp

/-- Claim C4, witness: the dynamic-offset conjunct of
`getAdjustedInt_amended` at the offset code `x` with delta `1` in one-based
mode (net delta zero). -/
theorem getAdjustedInt_amended_witness :
    getAdjustedInt true ("x") 1 false = .inr ("int(x)") := by
  have h := getAdjustedInt_amended.2.2 true false ("x") 1 (by decide)
    (by decide)
  simpa [specDynamicAdjust] using h

/-! ### Claim C5: trailing newline of `scrub_` (corrected)

The source's `scrub_` returns the plain concatenation of comment, body and
successor code; it neither appends nor trims newlines, so a body with no
trailing newline yields a result with none.  Concatenation of fragments
ending in exactly one newline stays in that shape once the appended
fragment has at least two characters (the one-character fragment `"\n"`
is a further counterexample to the unconditional closure). -/

/-- Claim C5, counterexample: for a comment-free block with body `x = 1;`
and no successor, `scrub_` returns the body unchanged, which does not end
in a newline; and appending the fragment consisting of a bare newline to
`x\n` ends with two newlines, refuting the unconditional closure. -/
theorem scrub_trailing_newline_counterexample :
    scrub_ ("") ("x = 1;") ("") = ("x = 1;") ∧
    endsOneNL (scrub_ ("") ("x = 1;") ("")).data = false ∧
    endsOneNL ("x\n").data = true ∧
    endsOneNL ("\n").data = true ∧
    endsOneNL ("x\n" ++ "\n").data = false := by
  refine ⟨rfl, ?_, ?_, ?_, ?_⟩ <;> decide

/-- Claim C5, amended: `scrub_` is the plain concatenation of comment,
body and successor code; its result ends with exactly one trailing newline
whenever the successor fragment does and is at least two characters long
(and, with no successor, whenever the body fragment does and is at least
two characters long), and concatenation of two such fragments again ends
with exactly one trailing newline under the same proviso on the second. -/
theorem scrub_amended :
    (∀ c a b : String, endsOneNL b.data = true → 2 ≤ b.data.length →
      endsOneNL (scrub_ c a b).data = true) ∧
    (∀ c a : String, endsOneNL a.data = true → 2 ≤ a.data.length →
      endsOneNL (scrub_ c a ("")).data = true) ∧
    (∀ a b : String, endsOneNL a.data = true → endsOneNL b.data = true →
      2 ≤ b.data.length → endsOneNL (a ++ b).data = true) := by
  refine ⟨fun c a b hb hlen => ?_, fun c a ha hlen => ?_,
    fun a b _ hb hlen => ?_⟩
  · have : (scrub_ c a b).data = (c.data ++ a.data) ++ b.data := by
      simp [scrub_]
    rw [this, endsOneNL_append _ _ hlen]; exact hb
  · have : (scrub_ c a ("")).data = c.data ++ a.data := by simp [scrub_]
    rw [this, endsOneNL_append _ _ hlen]; exact ha
  · have : (a ++ b).data = a.data ++ b.data := by simp
    rw [this, endsOneNL_append _ _ hlen]; exact hb

/-- Claim C5, witness: `scrub_amended` applied to the comment `# note`,
body `x = 1;` and successor fragment `y = 2;` each newline-terminated. -/
theorem scrub_amended_witness :
    endsOneNL (scrub_ ("# note\n") ("x = 1;\n") ("y = 2;\n")).data = true :=
  scrub_amended.1 ("# note\n") ("x = 1;\n") ("y = 2;\n") (by decide)
    (by decide)

/-! ### Claim C3: default literals for unfilled slots (corrected)

Most emitters default an unfilled child slot to a fixed atomic literal
(`0`, `[]`, `false`, `\x27\x27`, `\x7b\x7d`), but the `DELIM` slot of
`lists_split` in `SPLIT` mode (lists.js line 365) is spliced with no
default, so an unfilled delimiter leaves an empty operand in the output
(as does the `DIVISOR` slot of `math_number_property`, Claim C2). -/

/-- Claim C3, counterexample: `lists_split` in `SPLIT` mode with an
unfilled `DELIM` slot returns `strsplit('', )` — the delimiter operand
position is empty (the text contains the juxtaposition `, )`), and the
general equation shows the slot is spliced verbatim with no default. -/
theorem lists_split_empty_delim_counterexample :
    lists_split ("SPLIT") ("") ("") =
      .ok ("strsplit(\x27\x27, )", ORDER_FUNCTION_CALL) ∧
    countOcc (", )").data ("strsplit(\x27\x27, )").data = 1 ∧
    (∀ d : String, lists_split ("SPLIT") ("") d =
      .ok ("strsplit(\x27\x27, " ++ d ++ ")", ORDER_FUNCTION_CALL)) :=
  ⟨rfl, by decide, fun d => rfl⟩

/-- Claim C3, amended: the cited emitters substitute fixed atomic defaults
for unfilled slots — `false` and the `pass` body in `controls_if`, `\x7b\x7d`
and `\x27\x27` in `lists_split`'s JOIN mode, `0` in `math_number_property` —
except that the `DELIM` slot of `lists_split` in SPLIT mode (and the
`DIVISOR` slot of `math_number_property`, Claim C2) is spliced raw. -/
theorem default_literal_amended :
    controls_if [(("" : String), ("" : String))] (some ("")) =
      "if false\n" ++ PASS ++ "else\n" ++ PASS ++ "end\n" ∧
    lists_split ("JOIN") ("") ("") =
      .ok ("strjoin(\x7b\x7d, \x27\x27)", ORDER_FUNCTION_CALL) ∧
    math_number_property ("EVEN") ("") ("") =
      (some ("mod(0, 2) == 0"), ORDER_RELATIONAL) ∧
    (∀ inputRaw delimRaw : String,
      lists_split ("SPLIT") inputRaw delimRaw =
        .ok ("strsplit(" ++ orD inputRaw ("\x27\x27") ++ ", " ++ delimRaw ++
          ")", ORDER_FUNCTION_CALL)) :=
  ⟨rfl, rfl, rfl, fun _ _ => rfl⟩

/-! ### Claim C1: abort on unrecognised enumeration values (corrected)

`math_single` and `math_on_list` throw errors carrying the offending value
(`'Unknown math operator: ' + operator`); `lists_getIndex` (lists.js line
209) also throws, but its message is the fixed text
`Unhandled combination (lists_getIndex).`, naming the block kind and not
the offending WHERE/MODE value; and `logic_compare` (matlab.js logic
section lines 403-413) performs a bare table lookup: for an unknown `OP`
the JavaScript `undefined` is spliced into the returned code string and no
error is raised at all. -/

/-- Full operator list of `math_single` (the `NEG` special case and the
two switch tables). -/
def mathSingleOps : List String :=
  ["NEG", "ABS", "ROOT", "LN", "LOG10", "EXP", "POW10", "ROUND", "ROUNDUP",
   "ROUNDDOWN", "SIN", "COS", "TAN", "ASIN", "ACOS", "ATAN"]

theorem math_single_unknown (op num : String) (h : op ∉ mathSingleOps) :
    math_single op num = .error ("Unknown math operator: " ++ op) := by
  have h1 : op ≠ "NEG" := fun e => h (by rw [e]; decide)
  have t1 : (mathSingleTable1 (orD num ("0"))).lookup op = none := by
    rw [lookup_eq_none_iff]
    intro hmem
    simp [mathSingleTable1] at hmem
    rcases hmem with e | e | e | e | e | e | e | e | e | e | e | e <;>
      exact h (by rw [e]; decide)
  have t2 : (mathSingleTable2 (orD num ("0"))).lookup op = none := by
    rw [lookup_eq_none_iff]
    intro hmem
    simp [mathSingleTable2] at hmem
    rcases hmem with e | e | e <;> exact h (by rw [e]; decide)
  simp [math_single, h1, t1, t2]

/-- Claim C1, counterexample: `logic_compare` with the unknown operator tag
`XYZ` does not abort; it returns a code string in which the operator was
replaced by the text `undefined`. -/
theorem logic_compare_unknown_op_counterexample :
    logic_compare ("XYZ") ("") ("") = ("0 undefined 0", ORDER_RELATIONAL) ∧
    countOcc ("undefined").data ("0 undefined 0").data = 1 :=
  ⟨rfl, by decide⟩

/-- Claim C1, amended: `math_single` aborts with a kind-and-value error
(`Unknown math operator: ` followed by the offending tag) on any operator
tag outside its table; `lists_getIndex` aborts on any unrecognised
addressing mode or mode combination, but with the fixed message
`Unhandled combination (lists_getIndex).`, which names the block kind and
does not carry the offending value; and `logic_compare` does not abort on
an unknown operator tag at all — it splices the text `undefined` between
the (defaulted) operands and returns normally. -/
theorem unknown_enum_abort_amended :
    (∀ op num : String, op ∉ mathSingleOps →
      math_single op num = .error ("Unknown math operator: " ++ op)) ∧
    (∀ (ob : Bool) (modeF whereF v at_ : String),
      orD whereF ("FROM_START") ∉
        [("FIRST" : String), "LAST", "FROM_START", "FROM_END", "RANDOM"] →
      lists_getIndex ob modeF whereF v at_ =
        .error ("Unhandled combination (lists_getIndex).")) ∧
    (∀ (ob : Bool) (modeF whereF v at_ : String),
      orD modeF ("GET") ∉ [("GET" : String), "GET_REMOVE", "REMOVE"] →
      lists_getIndex ob modeF whereF v at_ =
        .error ("Unhandled combination (lists_getIndex).")) ∧
    (∀ op a b : String, logicCompareOps.lookup op = none →
      logic_compare op a b =
        (orD a ("0") ++ " undefined " ++ orD b ("0"), ORDER_RELATIONAL)) := by
  refine ⟨math_single_unknown, ?_, ?_, ?_⟩
  · intro ob modeF whereF v at_ h
    simp only [List.mem_cons, List.not_mem_nil, or_false, not_or] at h
    obtain ⟨h1, h2, h3, h4, h5⟩ := h
    simp [lists_getIndex, h1, h2, h3, h4, h5]
  · intro ob modeF whereF v at_ h
    simp only [List.mem_cons, List.not_mem_nil, or_false, not_or] at h
    obtain ⟨h1, h2, h3⟩ := h
    simp [lists_getIndex, h1, h2, h3]
  · intro op a b h
    apply Prod.ext
    · simp only [logic_compare, h]
      apply String.ext
      simp [List.append_assoc]
    · simp [logic_compare]

/-- Claim C1, witness: `unknown_enum_abort_amended` at the unknown math
operator `FOO`, the unknown addressing mode `NOWHERE`, the unknown list
mode `TAKE`, and the unknown comparison tag `CMP`. -/
theorem unknown_enum_abort_amended_witness :
    math_single ("FOO") ("") = .error ("Unknown math operator: FOO") ∧
    lists_getIndex false ("GET") ("NOWHERE") ("") ("") =
      .error ("Unhandled combination (lists_getIndex).") ∧
    lists_getIndex false ("TAKE") ("FIRST") ("") ("") =
      .error ("Unhandled combination (lists_getIndex).") ∧
    logic_compare ("CMP") ("a") ("b") = ("a undefined b", ORDER_RELATIONAL) := by
  refine ⟨?_, ?_, ?_, ?_⟩
  · simpa using unknown_enum_abort_amended.1 ("FOO") ("") (by decide)
  · simpa using unknown_enum_abort_amended.2.1 false ("GET") ("NOWHERE")
      ("") ("") (by decide)
  · simpa using unknown_enum_abort_amended.2.2.1 false ("TAKE") ("FIRST")
      ("") ("") (by decide)
  · simpa using unknown_enum_abort_amended.2.2.2 ("CMP") ("a") ("b")
      (by decide)

/-! ### Claim C9: RANDOM addressing and double evaluation (corrected)

`lists_setIndex` in RANDOM mode caches a non-identifier collection in a
fresh temporary before using it, and `lists_getIndex` passes the
collection to the `getRemoveAt` helper exactly once; but `text_charAt`
(text.js lines 457-460) and the RANDOM reduction of `math_on_list`
(math.js lines 234-236) splice the collection expression twice with no
temporary. -/

/-- Claim C9, counterexample: `text_charAt` in RANDOM mode over the
defaulted text expression `\x27\x27` (not a bare identifier) splices that
expression twice — it occurs at two positions of the emitted code and no
temporary assignment is produced. -/
theorem text_charAt_random_double_splice :
    text_charAt false ("RANDOM") ("") ("") =
      .ok ("\x27\x27(randi(length(\x27\x27)))", ORDER_FUNCTION_CALL) ∧
    isIdentifier ("\x27\x27") = false ∧
    countOcc ("\x27\x27").data
      ("\x27\x27(randi(length(\x27\x27)))").data = 2 :=
  ⟨rfl, by decide, by decide⟩

/-- Claim C9, amended: in RANDOM mode `lists_getIndex` — in each of its
GET, GET_REMOVE and REMOVE modes — passes the collection expression to the
helper exactly once, and `lists_setIndex` — in each of its SET and INSERT
modes — caches a non-identifier collection to a fresh temporary (the
original expression occurs once, in the cache assignment); but
`text_charAt` and the RANDOM reduction of `math_on_list` splice the
collection expression twice without any temporary. -/
theorem random_mode_splicing_amended :
    (∀ (ob : Bool) (l at_ : String),
      lists_getIndex ob ("GET") ("RANDOM") l at_ =
        .ok (.expr (getRemoveAtName ++ "(" ++ orD l ("\x7b\x7d") ++ ", 0, 1)")
          ORDER_FUNCTION_CALL) ∧
      lists_getIndex ob ("GET_REMOVE") ("RANDOM") l at_ =
        .ok (.expr (getRemoveAtName ++ "(" ++ orD l ("\x7b\x7d") ++ ", 0, 0)")
          ORDER_FUNCTION_CALL) ∧
      lists_getIndex ob ("REMOVE") ("RANDOM") l at_ =
        .ok (.stmt (getRemoveAtName ++ "(" ++ orD l ("\x7b\x7d") ++
          ", 0, 0);\n"))) ∧
    (∀ (ob : Bool) (l v at_ tl xv : String),
      isIdentifier (orD l ("\x7b\x7d")) = false →
      lists_setIndex ob ("SET") ("RANDOM") l v at_ tl xv =
        .ok (tl ++ " = " ++ orD l ("\x7b\x7d") ++ "\n" ++ xv ++
          " = randi(length(" ++ tl ++ "));\n" ++ tl ++ "(" ++ xv ++ ") = " ++
          ("flattentocelllist(" ++ orD v ("[]") ++ ")") ++ ";\n") ∧
      lists_setIndex ob ("INSERT") ("RANDOM") l v at_ tl xv =
        .ok (tl ++ " = " ++ orD l ("\x7b\x7d") ++ "\n" ++ xv ++
          " = randi(length(" ++ tl ++ "));\n" ++ tl ++ " = [" ++ tl ++
          "(1:" ++ xv ++ "-1), " ++
          ("flattentocelllist(" ++ orD v ("[]") ++ ")") ++ ", " ++ tl ++
          "(" ++ xv ++ ":end)];\n")) ∧
    (∀ (ob : Bool) (t at_ : String),
      text_charAt ob ("RANDOM") t at_ =
        .ok (orD t ("\x27\x27") ++ "(randi(length(" ++ orD t ("\x27\x27") ++
          ")))", ORDER_FUNCTION_CALL)) ∧
    (∀ l : String, math_on_list ("RANDOM") l =
      .ok (orD l ("[]") ++ "(randi(length(" ++ orD l ("[]") ++ ")))",
        ORDER_FUNCTION_CALL)) ∧
    countOcc ("foo(1)").data
      ("tmp_list = foo(1)\ntmp_x = randi(length(tmp_list));\n" ++
        "tmp_list(tmp_x) = flattentocelllist([]);\n").data = 1 := by
  refine ⟨fun ob l at_ => ⟨rfl, rfl, rfl⟩, ?_, fun ob t at_ => rfl, ?_,
    by decide⟩
  · intro ob l v at_ tl xv h
    constructor
    · simp only [lists_setIndex,
        show orD ("RANDOM") ("FROM_START") = ("RANDOM") from rfl,
        show orD ("SET") ("GET") = ("SET") from rfl]
      simp [h]
    · simp only [lists_setIndex,
        show orD ("RANDOM") ("FROM_START") = ("RANDOM") from rfl,
        show orD ("INSERT") ("GET") = ("INSERT") from rfl]
      simp [h]
  · intro l
    simp [math_on_list, mathOnListTable, List.lookup]

/-- Claim C9, witness: `random_mode_splicing_amended` applied to a
`lists_setIndex` block in RANDOM mode, in SET and in INSERT mode, whose
collection expression `foo(1)` is not a bare identifier: the expression is
cached to the temporary and occurs once in either statement. -/
theorem random_mode_splicing_amended_witness :
    lists_setIndex false ("SET") ("RANDOM") ("foo(1)") ("") ("")
      ("tmp_list") ("tmp_x") =
      .ok ("tmp_list = foo(1)\ntmp_x = randi(length(tmp_list));\n" ++
        "tmp_list(tmp_x) = flattentocelllist([]);\n") ∧
    lists_setIndex false ("INSERT") ("RANDOM") ("foo(1)") ("") ("")
      ("tmp_list") ("tmp_x") =
      .ok ("tmp_list = foo(1)\ntmp_x = randi(length(tmp_list));\n" ++
        "tmp_list = [tmp_list(1:tmp_x-1), flattentocelllist([]), " ++
        "tmp_list(tmp_x:end)];\n") := by
  have h := random_mode_splicing_amended.2.1 false ("foo(1)") ("") ("")
    ("tmp_list") ("tmp_x") (by decide)
  exact ⟨by simpa using h.1, by simpa using h.2⟩

/-! ### Claim C6: structure of the `finish` output (confirmed)

The lemmas below establish that the newline-collapsing pass leaves no run
of three or more newlines, that stripping trailing newlines preserves this
and leaves a preamble not ending in a newline, and hence that the finished
output is the partitioned import/definition preamble followed by exactly
two blank lines and the body. -/

theorem dropNLs_head (l : List Char) : ∀ c, (dropNLs l).head? = some c → c ≠ '\n' := by
  induction l with
  | nil => intro c h; simp [dropNLs] at h
  | cons x xs ih =>
    intro c h
    by_cases hx : x = '\n'
    · rw [dropNLs, if_pos hx] at h; exact ih c h
    · rw [dropNLs, if_neg hx] at h
      simp at h
      exact h ▸ hx

theorem collapseNN_head (l : List Char) : (collapseNN l).head? = l.head? := by
  rw [collapseNN.eq_def]
  split
  · rfl
  · rfl
  · rfl

theorem startsNN_false_of_head_ne (X : List Char)
    (hX : ∀ x, X.head? = some x → x ≠ '\n') : startsNN X = false := by
  rcases X with _ | ⟨x, _ | ⟨y, t⟩⟩
  · rfl
  · rfl
  · simp [startsNN, hX x rfl]

theorem startsNN_nl_cons_false (X : List Char)
    (hX : ∀ x, X.head? = some x → x ≠ '\n') : startsNN ('\n' :: X) = false := by
  rcases X with _ | ⟨x, xs⟩
  · rfl
  · simp [startsNN, hX x rfl]

theorem containsTripleNL_collapseNN (l : List Char) :
    containsTripleNL (collapseNN l) = false := by
  induction l using collapseNN.induct with
  | case1 => simp [collapseNN, containsTripleNL]
  | case2 rest ih =>
    rw [collapseNN]
    have hX : ∀ x, (collapseNN (dropNLs rest)).head? = some x → x ≠ '\n' := by
      intro x hx
      rw [collapseNN_head] at hx
      exact dropNLs_head _ x hx
    simp [containsTripleNL, startsNN_nl_cons_false _ hX,
      startsNN_false_of_head_ne _ hX, ih]
  | case3 c rest h ih =>
    rw [collapseNN]
    · by_cases hc : c = '\n'
      · subst hc
        have hr : ∀ x, rest.head? = some x → x ≠ '\n' := by
          intro x hx hxeq
          rcases rest with _ | ⟨r0, rs⟩
          · simp at hx
          · simp at hx
            exact h rs rfl (by rw [hx, hxeq])
        have hX : ∀ x, (collapseNN rest).head? = some x → x ≠ '\n' := by
          intro x hx
          rw [collapseNN_head] at hx
          exact hr x hx
        simp [containsTripleNL, startsNN_false_of_head_ne _ hX, ih]
      · simp [containsTripleNL, hc, ih]
    · exact h

theorem containsTripleNL_append_left {l : List Char} (t : List Char)
    (h : containsTripleNL l = true) : containsTripleNL (l ++ t) = true := by
  induction l with
  | nil => simp [containsTripleNL] at h
  | cons c rest ih =>
    rw [containsTripleNL] at h
    rw [List.cons_append, containsTripleNL]
    rcases (Bool.or_eq_true _ _).mp h with h1 | h2
    · rcases (Bool.and_eq_true _ _).mp h1 with ⟨hc, hs⟩
      have : startsNN (rest ++ t) = true := by
        rcases rest with _ | ⟨a, _ | ⟨b, t2⟩⟩
        · simp [startsNN] at hs
        · simp [startsNN] at hs
        · simpa [startsNN] using hs
      simp [hc, this]
    · simp [ih h2]

theorem containsTripleNL_mono {p l : List Char} (hp : p <+: l)
    (h : containsTripleNL l = false) : containsTripleNL p = false := by
  obtain ⟨t, rfl⟩ := hp
  by_contra hcontra
  rw [Bool.not_eq_false] at hcontra
  rw [containsTripleNL_append_left t hcontra] at h
  exact Bool.true_eq_false ▸ h

theorem dropNLs_suffix (l : List Char) : dropNLs l <:+ l := by
  induction l with
  | nil => exact List.suffix_refl _
  | cons c cs ih =>
    rw [dropNLs]
    by_cases hc : c = '\n'
    · rw [if_pos hc]
      exact ih.trans (List.suffix_cons c cs)
    · rw [if_neg hc]

theorem dropTrailNL_isPrefixOf (l : List Char) : dropTrailNL l <+: l := by
  have h := dropNLs_suffix l.reverse
  have h2 := h.reverse
  simpa [dropTrailNL] using h2

theorem dropTrailNL_getLast (l : List Char) :
    ∀ c, (dropTrailNL l).getLast? = some c → c ≠ '\n' := by
  intro c hc
  rw [dropTrailNL, List.getLast?_reverse] at hc
  exact dropNLs_head _ c hc

theorem str_data_append (a b : String) : (a ++ b).data = a.data ++ b.data :=
  rfl

/-- Claim C6: `finish` places the definitions matching the import pattern
(joined by single newlines) before all remaining definitions (joined by
blank lines), collapses interior newline runs so that no three consecutive
newlines remain in the preamble, and ends the preamble with exactly three
newlines — two blank lines — before the body. -/
theorem finish_import_partition_and_blank_lines :
    ∀ (defs : List String) (code : String),
      ∃ p : List Char,
        (finish defs code).data = p ++ ['\n', '\n', '\n'] ++ code.data ∧
        containsTripleNL p = false ∧
        (p.getLast? == some '\n') = false ∧
        p = dropTrailNL (collapseNN (joinSep ("\n")
            (defs.filter (fun d => isImportDef d)) ++ "\n\n" ++
          joinSep ("\n\n") (defs.filter (fun d => !isImportDef d))).data) := by
  intro defs code
  refine ⟨_, ?_, ?_, ?_, rfl⟩
  · rw [finish, str_data_append]
    simp [trailFix, List.append_assoc]
  · exact containsTripleNL_mono (dropTrailNL_isPrefixOf _)
      (containsTripleNL_collapseNN _)
  · rcases hl : (dropTrailNL (collapseNN _)).getLast? with _ | c
    · simp
    · simpa using dropTrailNL_getLast _ c hl

/-! ### Claim C7: helper-registry idempotence (confirmed, spec-modelled)

`provideFunction_` lives in the Blockly core `Generator`, which is not part
of the generator sources; the registry is modelled from the spec above.
The theorems show that `N` calls with one key return `N` copies of the
first assigned name and the state of the first call, that a first-time key
adds exactly one definition, that a request sequence registers definitions
in first-request order, and that `finish` places all of them before the
body. -/

theorem lookup_append_of_none {α : Type} (k : String)
    (qs : List (String × α)) :
    ∀ ps : List (String × α), ps.lookup k = none →
      (ps ++ qs).lookup k = qs.lookup k
  | [], _ => by simp
  | (a, v) :: rest, h => by
    by_cases hk : k = a
    · subst hk
      simp [List.lookup] at h
    · have hbeq : (k == a) = false := beq_eq_false_iff_ne.mpr hk
      simp only [List.lookup, hbeq] at h
      simp only [List.cons_append, List.lookup, hbeq]
      exact lookup_append_of_none k qs rest h

theorem provide_unfold_none (nameFor : String → String) (key : String)
    (mkDef : String → String) (s : GenState)
    (hk : s.functionNames.lookup key = none) :
    provideFunction_ nameFor key mkDef s =
      (nameFor key,
       { definitions := s.definitions ++ [(key, mkDef (nameFor key))],
         functionNames := s.functionNames ++ [(key, nameFor key)] }) := by
  simp only [provideFunction_, hk]

theorem provide_unfold_some (nameFor : String → String) (key : String)
    (mkDef : String → String) (s : GenState) (n : String)
    (hk : s.functionNames.lookup key = some n) :
    provideFunction_ nameFor key mkDef s = (n, s) := by
  simp only [provideFunction_, hk]

theorem provide_stable (nameFor : String → String) (key : String)
    (mkDef : String → String) (s : GenState) :
    provideFunction_ nameFor key mkDef
        (provideFunction_ nameFor key mkDef s).2 =
      provideFunction_ nameFor key mkDef s := by
  rcases hk : s.functionNames.lookup key with _ | n
  · rw [provide_unfold_none nameFor key mkDef s hk]
    have h2 : (s.functionNames ++ [(key, nameFor key)]).lookup key =
        some (nameFor key) := by
      rw [lookup_append_of_none key _ _ hk]
      simp [List.lookup]
    exact provide_unfold_some nameFor key mkDef _ _ h2
  · rw [provide_unfold_some nameFor key mkDef s n hk]
    exact provide_unfold_some nameFor key mkDef s n hk

theorem provideN_spec (nameFor : String → String) (key : String)
    (mkDef : String → String) (s : GenState) :
    ∀ N : Nat, 1 ≤ N →
      provideResults nameFor key mkDef N s =
        List.replicate N (provideFunction_ nameFor key mkDef s).1 ∧
      provideStateN nameFor key mkDef N s =
        (provideFunction_ nameFor key mkDef s).2 := by
  have hres : ∀ m : Nat,
      provideResults nameFor key mkDef m
          (provideFunction_ nameFor key mkDef s).2 =
        List.replicate m (provideFunction_ nameFor key mkDef s).1 := by
    intro m
    induction m with
    | zero => rfl
    | succ m ih =>
      rw [provideResults, provide_stable]
      rw [List.replicate_succ]
      exact congrArg _ ih
  have hstate : ∀ m : Nat,
      provideStateN nameFor key mkDef (m + 1) s =
        (provideFunction_ nameFor key mkDef s).2 := by
    intro m
    induction m with
    | zero => rfl
    | succ m ih =>
      rw [provideStateN, ih, provide_stable]
  intro N hN
  rcases Nat.exists_eq_add_of_le hN with ⟨m, rfl⟩
  constructor
  · rw [Nat.add_comm 1 m, provideResults, List.replicate_succ]
    · exact congrArg _ (hres m)
  · rw [Nat.add_comm 1 m]
    exact hstate m

theorem keyCount_append_self (ps : List (String × String)) (k v : String) :
    keyCount (ps ++ [(k, v)]) k = keyCount ps k + 1 := by
  simp [keyCount, List.filter_append]

theorem runRequests_keys (nameFor : String → String) :
    ∀ (reqs : List (String × (String → String))) (s0 : GenState),
      s0.definitions.map Prod.fst = s0.functionNames.map Prod.fst →
      (runRequests nameFor reqs s0).definitions.map Prod.fst =
        s0.definitions.map Prod.fst ++
          newKeys (s0.definitions.map Prod.fst) (reqs.map Prod.fst)
  | [], s0, _ => by simp [runRequests, newKeys]
  | (k, f) :: rest, s0, hinv => by
    rcases hk : s0.functionNames.lookup k with _ | n
    · have hmem : k ∉ s0.functionNames.map Prod.fst :=
        (lookup_eq_none_iff k _).mp hk
      have hmem' : k ∉ s0.definitions.map Prod.fst := by
        rw [hinv]; exact hmem
      rw [runRequests, provide_unfold_none nameFor k f s0 hk]
      have hinv' : (GenState.mk (s0.definitions ++ [(k, f (nameFor k))])
            (s0.functionNames ++ [(k, nameFor k)])).definitions.map Prod.fst =
          (GenState.mk (s0.definitions ++ [(k, f (nameFor k))])
            (s0.functionNames ++ [(k, nameFor k)])).functionNames.map
            Prod.fst := by
        simp [hinv]
      have ih := runRequests_keys nameFor rest _ hinv'
      rw [ih]
      simp [newKeys, hmem', List.append_assoc]
    · have hmem : k ∈ s0.functionNames.map Prod.fst := by
        by_contra hc
        rw [(lookup_eq_none_iff k _).mpr hc] at hk
        simp at hk
      have hmem' : k ∈ s0.definitions.map Prod.fst := by
        rw [hinv]; exact hmem
      rw [runRequests, provide_unfold_some nameFor k f s0 n hk]
      have ih := runRequests_keys nameFor rest s0 hinv
      rw [ih]
      simp [newKeys, hmem']

/-- Claim C7: calling `provideFunction_` with one key `N ≥ 1` times yields
the same assigned name on every call and the state of the single first
call; a key not yet registered gains exactly one definition; a sequence of
requests registers definition keys in first-request order; and the
finished output emits every accumulated definition before the body. -/
theorem provideFunction_registry_spec :
    (∀ (nameFor : String → String) (key : String) (mkDef : String → String)
      (s : GenState) (N : Nat), 1 ≤ N →
      provideResults nameFor key mkDef N s =
        List.replicate N (provideFunction_ nameFor key mkDef s).1 ∧
      provideStateN nameFor key mkDef N s =
        (provideFunction_ nameFor key mkDef s).2) ∧
    (∀ (nameFor : String → String) (key : String) (mkDef : String → String)
      (s : GenState) (N : Nat), 1 ≤ N → s.functionNames.lookup key = none →
      keyCount (provideStateN nameFor key mkDef N s).definitions key =
        keyCount s.definitions key + 1) ∧
    (∀ (nameFor : String → String)
      (reqs : List (String × (String → String))) (s0 : GenState),
      s0.definitions.map Prod.fst = s0.functionNames.map Prod.fst →
      (runRequests nameFor reqs s0).definitions.map Prod.fst =
        s0.definitions.map Prod.fst ++
          newKeys (s0.definitions.map Prod.fst) (reqs.map Prod.fst)) ∧
    (∀ (defs : List String) (body : String), ∃ q : List Char,
      (finish defs body).data = q ++ body.data) := by
  refine ⟨fun nameFor key mkDef s N hN => provideN_spec nameFor key mkDef s N hN,
    ?_, runRequests_keys, fun defs body => ⟨_, rfl⟩⟩
  intro nameFor key mkDef s N hN hk
  rw [(provideN_spec nameFor key mkDef s N hN).2,
    provide_unfold_none nameFor key mkDef s hk]
  exact keyCount_append_self _ _ _

/-- Claim C7, witness: `provideFunction_registry_spec` at the key
`lists_sort`, requested three times from the empty state: three identical
names, one definition. -/
theorem provideFunction_registry_spec_witness :
    provideResults (fun k => k) ("lists_sort") (fun n => "function " ++ n)
      3 ⟨[], []⟩ = [("lists_sort" : String), "lists_sort", "lists_sort"] ∧
    keyCount (provideStateN (fun k => k) ("lists_sort")
      (fun n => "function " ++ n) 3 ⟨[], []⟩).definitions ("lists_sort") = 1 := by
  constructor
  · rw [(provideFunction_registry_spec.1 (fun k => k) ("lists_sort") (fun n => "function " ++ n)
      ⟨[], []⟩ 3 (by decide)).1]
    rfl
  · rw [provideFunction_registry_spec.2.1 (fun k => k) ("lists_sort") (fun n => "function " ++ n)
      ⟨[], []⟩ 3 (by decide) (by rfl)]
    rfl

/-! ### Claim C10: the string quoter `quote_` (confirmed)

Per-character composition lemmas for the escaping pipeline, preservation
of quote characters by the backslash/newline pass, and the unescaped-scan
argument showing the chosen delimiter never occurs unescaped in the body. -/

def escWith (f : Char → List Char) : List Char → List Char
  | [] => []
  | c :: r => f c ++ escWith f r

theorem occursChar_append (q : Char) (a b : List Char) :
    occursChar q (a ++ b) = (occursChar q a || occursChar q b) := by
  induction a with
  | nil => simp [occursChar]
  | cons c r ih => simp [occursChar, ih, Bool.or_assoc]

theorem escNL_append (a b : List Char) :
    escNL (a ++ b) = escNL a ++ escNL b := by
  induction a with
  | nil => rfl
  | cons c r ih => simp [escNL, ih]

theorem escSQ_append (a b : List Char) :
    escSQ (a ++ b) = escSQ a ++ escSQ b := by
  induction a with
  | nil => rfl
  | cons c r ih => simp [escSQ, ih]

theorem escNL_escBS (l : List Char) :
    escNL (escBS l) = escWith charEscNoSQ l := by
  induction l with
  | nil => rfl
  | cons c r ih =>
    rw [escBS, escNL_append, escWith, ih]
    congr 1
    by_cases h1 : c = '\\'
    · simp [h1, escNL, charEscNoSQ]
    · by_cases h2 : c = '\n'
      · simp [h1, h2, escNL, charEscNoSQ]
      · simp [h1, h2, escNL, charEscNoSQ]

theorem escSQ_escWith (l : List Char) :
    escSQ (escWith charEscNoSQ l) = escWith charEscSQ l := by
  induction l with
  | nil => rfl
  | cons c r ih =>
    rw [escWith, escSQ_append, escWith, ih]
    congr 1
    by_cases h1 : c = '\\'
    · simp [h1, escSQ, charEscNoSQ, charEscSQ]
    · by_cases h2 : c = '\n'
      · simp [h1, h2, escSQ, charEscNoSQ, charEscSQ]
      · by_cases h3 : c = '\x27'
        · simp [h1, h2, h3, escSQ, charEscNoSQ, charEscSQ]
        · simp [h1, h2, h3, escSQ, charEscNoSQ, charEscSQ]

theorem occursChar_charEscNoSQ (q : Char) (hq1 : q ≠ '\\') (hq2 : q ≠ '\n')
    (c : Char) : occursChar q (charEscNoSQ c) = (c == q) := by
  by_cases h1 : c = '\\'
  · subst h1
    simp [charEscNoSQ, occursChar, beq_eq_false_iff_ne.mpr (Ne.symm hq1)]
  · by_cases h2 : c = '\n'
    · subst h2
      simp [charEscNoSQ, occursChar, h1,
        beq_eq_false_iff_ne.mpr (Ne.symm hq1),
        beq_eq_false_iff_ne.mpr (Ne.symm hq2)]
    · simp [charEscNoSQ, occursChar, h1, h2]

theorem occursChar_escWithNoSQ (q : Char) (hq1 : q ≠ '\\') (hq2 : q ≠ '\n') :
    ∀ l : List Char, occursChar q (escWith charEscNoSQ l) = occursChar q l := by
  intro l
  induction l with
  | nil => rfl
  | cons c r ih =>
    rw [escWith, occursChar_append, ih, occursChar,
      occursChar_charEscNoSQ q hq1 hq2 c]

theorem scanUnescaped_of_not_occurs (d : Char) :
    ∀ (l : List Char), occursChar d l = false →
      ∀ esc : Bool, scanUnescaped d esc l = false := by
  intro l
  induction l with
  | nil => intro _ _; rfl
  | cons c r ih =>
    intro h esc
    rw [occursChar, Bool.or_eq_false_iff] at h
    obtain ⟨hc, hr⟩ := h
    have hcd : ¬c = d := by simpa using hc
    rw [scanUnescaped]
    by_cases h1 : c = '\\'
    · rw [if_pos h1]; exact ih hr _
    · rw [if_neg h1]
      have : (c = d && !esc) = false := by simp [hcd]
      rw [this]
      simp only [Bool.false_eq_true, if_false]
      exact ih hr _

theorem scanUnescaped_escWithSQ :
    ∀ l : List Char, scanUnescaped '\x27' false (escWith charEscSQ l) = false := by
  intro l
  induction l with
  | nil => rfl
  | cons c r ih =>
    rw [escWith]
    by_cases h1 : c = '\\'
    · simpa [h1, charEscSQ, scanUnescaped] using ih
    · by_cases h2 : c = '\n'
      · simpa [h1, h2, charEscSQ, scanUnescaped] using ih
      · by_cases h3 : c = '\x27'
        · simpa [h1, h2, h3, charEscSQ, scanUnescaped] using ih
        · simpa [h1, h2, h3, charEscSQ, scanUnescaped] using ih

/-- Claim C10: `quote_` wraps the escaped text in one quote character on
each side — a double quote exactly when the input contains a single quote
but no double quote, a single quote otherwise; the body is the
per-character image doubling every backslash and replacing every newline
by backslash-newline (escaping interior single quotes exactly when both
quote kinds occur); and the chosen delimiter never occurs unescaped
between the two delimiters. -/
theorem quote_spec :
    ∀ s : String, ∃ (q : Char) (body : List Char),
      (quote_ s).data = q :: body ++ [q] ∧
      (q = '"' ∨ q = '\x27') ∧
      ((q == '"') = (occursChar '\x27' s.data &&
        !(occursChar '"' s.data))) ∧
      body = escWith
        (if occursChar '\x27' s.data && occursChar '"' s.data then charEscSQ
         else charEscNoSQ) s.data ∧
      hasUnescaped q body = false := by
  intro s
  have ht : escNL (escBS s.data) = escWith charEscNoSQ s.data :=
    escNL_escBS s.data
  have h27 : occursChar '\x27' (escNL (escBS s.data)) =
      occursChar '\x27' s.data := by
    rw [ht]; exact occursChar_escWithNoSQ _ (by decide) (by decide) _
  have h34 : occursChar '"' (escNL (escBS s.data)) =
      occursChar '"' s.data := by
    rw [ht]; exact occursChar_escWithNoSQ _ (by decide) (by decide) _
  by_cases c1 : occursChar '\x27' s.data = true
  · by_cases c2 : occursChar '"' s.data = true
    · refine ⟨'\x27', escWith charEscSQ s.data, ?_, Or.inr rfl, ?_, ?_, ?_⟩
      · simp only [quote_, quoteBody, h27, h34, c1, c2, if_true]
        rw [ht, escSQ_escWith]
      · rw [c1, c2]; rfl
      · rw [c1, c2]; rfl
      · exact scanUnescaped_escWithSQ s.data
    · have c2' : occursChar '"' s.data = false := by
        simpa using c2
      refine ⟨'"', escWith charEscNoSQ s.data, ?_, Or.inl rfl, ?_, ?_, ?_⟩
      · simp only [quote_, quoteBody, h27, h34, c1, c2', if_true,
          Bool.false_eq_true, if_false]
        rw [ht]
      · rw [c1, c2']; rfl
      · rw [c1, c2']; rfl
      · apply scanUnescaped_of_not_occurs
        rw [occursChar_escWithNoSQ _ (by decide) (by decide)]
        exact c2'
  · have c1' : occursChar '\x27' s.data = false := by simpa using c1
    refine ⟨'\x27', escWith charEscNoSQ s.data, ?_, Or.inr rfl, ?_, ?_, ?_⟩
    · simp only [quote_, quoteBody, h27, h34, c1', Bool.false_eq_true,
        if_false]
      rw [ht]
    · rw [c1']; rfl
    · rw [c1']; rfl
    · apply scanUnescaped_of_not_occurs
      rw [occursChar_escWithNoSQ _ (by decide) (by decide)]
      exact c1'

end MatlabGen
